import Mathlib

set_option maxRecDepth 20000

namespace UWB

/-!
Shallow embedding of the UWB telemetry service (files `dados_crus.py`,
`processamento_crus.py`, `models.py`).  Machine floats are modelled by exact
rationals `ℚ`; the only irrational operation of the code, `math.hypot`, is
modelled over `ℝ` with `Real.sqrt`.  Timestamps are modelled as rational
seconds (UTC); ISO-8601 parsing of `criado_em` is outside the model.
-/

/-! ### The regular expression `RE_LINE` of dados_crus.py

`RE_LINE` is a Python `re` pattern compiled with `re.IGNORECASE` and used via
`.search`.  We embed the exact pattern as an item list over a small
backtracking matcher that mirrors the semantics of the constructs the pattern
uses: case-insensitive literals, greedy `\s*`/`\d+`/`[^)]*`, lazy `.*?`,
optional single characters `[-+]?`/`\.?`, capture groups and greedy optional
non-capture groups `(?:...)?`.  Character classes are modelled over ASCII. -/

/-- The characters of Python's `\s` class (ASCII range). -/
def isPySpace (c : Char) : Bool :=
  c == ' ' || c == '\t' || c == '\n' || c == '\x0B' || c == '\x0C' || c == '\r'

/-- `.` in a pattern compiled without `re.DOTALL`: any character but a newline. -/
def isDotAny (c : Char) : Bool := c != '\n'

/-- The class `[^)]`. -/
def isNotRParen (c : Char) : Bool := c != ')'

/-- The class `[-+]`. -/
def isSignChar (c : Char) : Bool := c == '-' || c == '+'

/-- The class `[\w.@+\-]` (ASCII range of `\w`). -/
def isWordChar (c : Char) : Bool :=
  c.isAlphanum || c == '_' || c == '.' || c == '@' || c == '+' || c == '-'

/-- Names of the capture groups of `RE_LINE`. -/
inductive GName where
  | tid | rng | kx | ky | cmd | user
deriving DecidableEq

/-- Captured substrings of a match of `RE_LINE` (`None` = group did not
participate, as in Python's `m.group`). -/
structure Caps where
  tid : Option (List Char) := none
  rng : Option (List Char) := none
  kx : Option (List Char) := none
  ky : Option (List Char) := none
  cmd : Option (List Char) := none
  user : Option (List Char) := none
deriving DecidableEq

def setCap (g : GName) (v : List Char) (c : Caps) : Caps :=
  match g with
  | .tid => { c with tid := some v }
  | .rng => { c with rng := some v }
  | .kx => { c with kx := some v }
  | .ky => { c with ky := some v }
  | .cmd => { c with cmd := some v }
  | .user => { c with user := some v }

/-- Items of the regular expression: literal (case-insensitive), greedy star,
lazy star, greedy plus, optional single character, capture group, greedy
optional non-capture group. -/
inductive RItem where
  | lit : List Char → RItem
  | starG : (Char → Bool) → RItem
  | starL : (Char → Bool) → RItem
  | plusG : (Char → Bool) → RItem
  | optC : (Char → Bool) → RItem
  | group : GName → List RItem → RItem
  | optG : List RItem → RItem

/-- Case-insensitive literal prefix stripping (the pattern is compiled with
`re.IGNORECASE`). -/
def stripLit : List Char → List Char → Option (List Char)
  | [], s => some s
  | _ :: _, [] => none
  | c :: l, c2 :: s => if c.toLower = c2.toLower then stripLit l s else none

/-- Length of the maximal run of characters of class `p` at the head. -/
def runLen (p : Char → Bool) : List Char → Nat
  | [] => 0
  | c :: t => if p c then runLen p t + 1 else 0

/-- Backtracking matcher in continuation-passing style.  Alternatives are
explored in the preference order of Python's engine (greedy: longest first;
lazy: shortest first; optional: with-item first).  `fuel` bounds the nesting
depth of item lists only; it is never exhausted for the fixed pattern below. -/
def mtch : Nat → List RItem → List Char → Caps →
    (List Char → Caps → Option Caps) → Option Caps
  | 0, _, _, _, _ => none
  | _ + 1, [], s, caps, k => k s caps
  | fuel + 1, .lit l :: rest, s, caps, k =>
    match stripLit l s with
    | some s2 => mtch fuel rest s2 caps k
    | none => none
  | fuel + 1, .starG p :: rest, s, caps, k =>
    ((List.range (runLen p s + 1)).reverse).findSome?
      (fun i => mtch fuel rest (s.drop i) caps k)
  | fuel + 1, .starL p :: rest, s, caps, k =>
    (List.range (runLen p s + 1)).findSome?
      (fun i => mtch fuel rest (s.drop i) caps k)
  | fuel + 1, .plusG p :: rest, s, caps, k =>
    ((List.range (runLen p s)).reverse).findSome?
      (fun i => mtch fuel rest (s.drop (i + 1)) caps k)
  | fuel + 1, .optC p :: rest, s, caps, k =>
    match s with
    | [] => mtch fuel rest [] caps k
    | c :: t =>
      if p c then
        match mtch fuel rest t caps k with
        | some r => some r
        | none => mtch fuel rest (c :: t) caps k
      else mtch fuel rest (c :: t) caps k
  | fuel + 1, .group g items :: rest, s, caps, k =>
    mtch fuel items s caps (fun s2 caps2 =>
      mtch fuel rest s2 (setCap g (s.take (s.length - s2.length)) caps2) k)
  | fuel + 1, .optG items :: rest, s, caps, k =>
    match mtch fuel items s caps (fun s2 caps2 => mtch fuel rest s2 caps2 k) with
    | some r => some r
    | none => mtch fuel rest s caps k

/-- `name\s*:\s*`, the label part of every field of `RE_LINE`. -/
def fieldLbl (name : String) : List RItem :=
  [.lit name.data, .starG isPySpace, .lit ":".data, .starG isPySpace]

/-- `[-+]?\d*\.?\d+`, the numeric pattern of the `kx` and `ky` groups. -/
def numGroup (g : GName) : RItem :=
  .group g [.optC isSignChar, .starG Char.isDigit,
            .optC (fun c => c == '.'), .plusG Char.isDigit]

/-- The full `RE_LINE` pattern of dados_crus.py:
`tid\s*:\s*(?P<tid>\d+).*?range\s*:\s*\((?P<rng>[^)]*)\).*?`
`kx\s*:\s*(?P<kx>[-+]?\d*\.?\d+).*?ky\s*:\s*(?P<ky>[-+]?\d*\.?\d+)`
`(?:.*?cmd\s*:\s*(?P<cmd>\d+))?(?:.*?user\s*:\s*(?P<user>[\w.@+\-]+))?`. -/
def reLine : List RItem :=
  fieldLbl "tid" ++ [.group .tid [.plusG Char.isDigit], .starL isDotAny] ++
  fieldLbl "range" ++
    [.lit "(".data, .group .rng [.starG isNotRParen], .lit ")".data,
     .starL isDotAny] ++
  fieldLbl "kx" ++ [numGroup .kx, .starL isDotAny] ++
  fieldLbl "ky" ++ [numGroup .ky] ++
  [.optG ([.starL isDotAny] ++ fieldLbl "cmd" ++
            [.group .cmd [.plusG Char.isDigit]]),
   .optG ([.starL isDotAny] ++ fieldLbl "user" ++
            [.group .user [.plusG isWordChar]])]

/-- `RE_LINE.search`: try a match at every start position, leftmost first. -/
def reSearch : List Char → Option Caps
  | [] => mtch 500 reLine [] {} (fun _ c => some c)
  | c :: t =>
    match mtch 500 reLine (c :: t) {} (fun _ c2 => some c2) with
    | some r => some r
    | none => reSearch t

/-! ### Python string helpers used by `parse_line` -/

/-- Python `str.strip()` (ASCII whitespace). -/
def pyStrip (s : String) : String :=
  ⟨((s.data.dropWhile (fun c => isPySpace c)).reverse.dropWhile
      (fun c => isPySpace c)).reverse⟩

/-- Python `str.lower()` (ASCII range). -/
def pyLower (s : String) : String := ⟨s.data.map Char.toLower⟩

/-- Python `str.split(sep)` on a one-character separator: splits on every
occurrence, keeps empty pieces. -/
def splitOnChar (sep : Char) : List Char → List Char → List String
  | acc, [] => [⟨acc.reverse⟩]
  | acc, c :: t =>
    if c = sep then ⟨acc.reverse⟩ :: splitOnChar sep [] t
    else splitOnChar sep (c :: acc) t

/-- Python `str.split(",")`. -/
def splitCommaAux (acc : List Char) (s : List Char) : List String :=
  splitOnChar ',' acc s

def natOfDigits (l : List Char) : Nat :=
  l.foldl (fun a c => 10 * a + (c.toNat - 48)) 0

/-- Sign prefix of a Python numeric literal. -/
def parseSign : List Char → (Int × List Char)
  | '-' :: t => (-1, t)
  | '+' :: t => (1, t)
  | s => (1, s)

/-- Exponent suffix of a Python float literal (everything after `e`/`E`);
must be `[sign]digits+` consuming the whole remainder. -/
def parseExp (s : List Char) : Option Int :=
  let sg := (parseSign s).1
  let s1 := (parseSign s).2
  let ds := s1.takeWhile (fun c => c.isDigit)
  let rest := s1.drop ds.length
  if ds = [] ∨ rest ≠ [] then none else some (sg * (natOfDigits ds : Int))

/-- The exact rational value of the decimal `m × 10 ^ e`. -/
def ratSci (m : Int) (e : Int) : ℚ :=
  if 0 ≤ e then ((m * 10 ^ e.toNat : Int) : ℚ)
  else Rat.divInt m ((10 : Int) ^ (-e).toNat)

/-- Python's `float(x)` on an already stripped string, as an exact rational:
`[sign] (digits [. digits*] | . digits+) [(e|E) [sign] digits+]`.
Modelled for finite decimal literals; the non-finite literals `inf`/
`infinity` and digit-group underscores are outside the rational model and
are treated as unparsable. -/
def pyFloat (s : String) : Option ℚ :=
  let sg := (parseSign s.data).1
  let s1 := (parseSign s.data).2
  let ip := s1.takeWhile (fun c => c.isDigit)
  let s2 := s1.drop ip.length
  let hasDot : Bool := match s2 with | '.' :: _ => true | _ => false
  let s2b := s2.drop 1
  let fp := if hasDot then s2b.takeWhile (fun c => c.isDigit) else []
  let s3 := if hasDot then s2b.drop fp.length else s2
  if ip = [] ∧ fp = [] then none
  else
    let m : Int := sg * (natOfDigits (ip ++ fp) : Int)
    match s3 with
    | [] => some (ratSci m (-(fp.length : Int)))
    | 'e' :: t => (parseExp t).map (fun ex => ratSci m (ex - fp.length))
    | 'E' :: t => (parseExp t).map (fun ex => ratSci m (ex - fp.length))
    | _ => none

/-- `dados_crus._to_float_or_none`: strip; empty or `"nan"` (case-insensitive)
is absent; then `float(x)`, with a parse failure recovered as absent. -/
def to_float_or_none (x : String) : Option ℚ :=
  let x := pyStrip x
  if x = "" then none
  else if pyLower x = "nan" then none
  else pyFloat x

/-- The tuple returned by `dados_crus.parse_line`. -/
structure RawReading where
  tid : String
  floats : List (Option ℚ)
  kx : Option ℚ
  ky : Option ℚ
  cmd : Nat
  user : Option String
deriving DecidableEq

/-- `dados_crus.parse_line`.  On a successful search the four mandatory
groups always participate, so `getD []` is never exercised at `none`. -/
def parse_line (line : String) : Option RawReading :=
  match reSearch line.data with
  | none => none
  | some m =>
    let tid := pyStrip ⟨m.tid.getD []⟩
    let parts := (splitCommaAux [] (m.rng.getD [])).map pyStrip
    let vals := (parts ++ List.replicate 8 "").take 8
    let floats := vals.map to_float_or_none
    let kx := to_float_or_none ⟨m.kx.getD []⟩
    let ky := to_float_or_none ⟨m.ky.getD []⟩
    let cmd := match m.cmd with
      | none => 0
      | some c => if c = [] then 0 else natOfDigits c
    let user := match m.user with
      | none => none
      | some u =>
        let u2 := pyStrip ⟨u⟩
        if u2 = "" then none else some u2
    some ⟨tid, floats, kx, ky, cmd, user⟩

/-! ### dados_crus.py: calibration offset and the report-session state machine

The `relatorio` table of the relational store is modelled as an in-memory
list of rows plus the autoincrement counter; the raw SQL of
`_relatorio_open_or_update` / `_relatorio_close` is embedded by its effect
on that table.  `datetime.utcnow()` is injected as a rational parameter. -/

def DIST_OFFSET_CM : ℚ := 40

def CALIBRATION_TAGS : List String := ["62", "63"]

/-- `dados_crus._apply_offset`. -/
def apply_offset (v : Option ℚ) : Option ℚ :=
  match v with
  | none => none
  | some v => some (v - DIST_OFFSET_CM)

/-- `dados_crus._fmt_str`: stringify a float, keep `None`.  The exact digit
string of Python's `str(float)` is irrelevant to the session semantics
(only null-ness matters); we stringify with `toString` on `ℚ`. -/
def fmt_str (v : Option ℚ) : Option String :=
  match v with
  | none => none
  | some v => some (toString v)

/-- A row of the `relatorio` table (models.Relatorio). -/
structure RelRow where
  relatorio_number : Nat
  inicio_do_relatorio : Option ℚ
  fim_do_relatorio : Option ℚ
  kx : Option String
  ky : Option String
  user : Option String
deriving DecidableEq

/-- The `relatorio` table plus its autoincrement counter. -/
structure RelState where
  nextId : Nat
  rows : List RelRow
deriving DecidableEq

/-- `SELECT relatorio_number FROM relatorio WHERE "user" = :user AND
fim_do_relatorio IS NULL ORDER BY relatorio_number DESC LIMIT 1`. -/
def findOpen (rows : List RelRow) (user : String) : Option Nat :=
  (rows.filter (fun r =>
      r.user == some user && r.fim_do_relatorio == none)).foldl
    (fun acc r =>
      match acc with
      | none => some r.relatorio_number
      | some i => some (max i r.relatorio_number))
    none

/-- Python truthiness of the optional `user` string (`if not user: return`). -/
def userTruthy : Option String → Bool
  | none => false
  | some u => u != ""

/-- `dados_crus._relatorio_open_or_update`. -/
def relatorio_open_or_update (st : RelState) (user : String)
    (kx_f ky_f : Option ℚ) (now : ℚ) : RelState :=
  if user = "" then st
  else
    let kx_s := fmt_str (apply_offset kx_f)
    let ky_s := fmt_str (apply_offset ky_f)
    match findOpen st.rows user with
    | none =>
      { nextId := st.nextId + 1,
        rows := st.rows ++
          [{ relatorio_number := st.nextId, inicio_do_relatorio := some now,
             fim_do_relatorio := none, kx := kx_s, ky := ky_s,
             user := some user }] }
    | some rid =>
      { st with rows := st.rows.map (fun r =>
          if r.relatorio_number = rid then
            { r with
              inicio_do_relatorio := some (r.inicio_do_relatorio.getD now),
              kx := match kx_s with | some v => some v | none => r.kx,
              ky := match ky_s with | some v => some v | none => r.ky }
          else r) }

/-- `dados_crus._relatorio_close`. -/
def relatorio_close (st : RelState) (user : String) (now : ℚ) : RelState :=
  if user = "" then st
  else
    match findOpen st.rows user with
    | none => st
    | some rid =>
      { st with rows := st.rows.map (fun r =>
          if r.relatorio_number = rid then
            { r with fim_do_relatorio := some now }
          else r) }

/-! ### dados_crus.py: the ingest loop -/

/-- A pending `distancias_uwb` insert (models.DistanciaUWB), offset applied. -/
structure SaveRow where
  tag_number : String
  da : List (Option ℚ)
  kx : Option ℚ
  ky : Option ℚ
deriving DecidableEq

/-- The loop state of `ingest_dados_crus`: the session table plus the
pending inserts and the per-batch counters. -/
structure BatchState where
  rel : RelState
  rows_to_save : List SaveRow
  skipped_calibration : Nat
  skipped_invalid : Nat
  skipped_cmd0 : Nat
  relatorios_abertos : Nat
  relatorios_fechados : Nat
deriving DecidableEq

def initBatch (rel : RelState) : BatchState :=
  { rel := rel, rows_to_save := [], skipped_calibration := 0,
    skipped_invalid := 0, skipped_cmd0 := 0, relatorios_abertos := 0,
    relatorios_fechados := 0 }

/-- One iteration of the parse loop of `ingest_dados_crus` (lines 177-226):
parse; apply the session command; then the cmd=0 and calibration-tag
discards; otherwise stage a `distancias_uwb` insert with the offset
applied. -/
def processLine (now : ℚ) (st : BatchState) (line : String) : BatchState :=
  match parse_line line with
  | none => { st with skipped_invalid := st.skipped_invalid + 1 }
  | some r =>
    let st :=
      if r.cmd = 1 ∧ userTruthy r.user then
        { st with
          rel := relatorio_open_or_update st.rel (r.user.getD "") r.kx r.ky now,
          relatorios_abertos := st.relatorios_abertos + 1 }
      else if r.cmd = 3 ∧ userTruthy r.user then
        { st with
          rel := relatorio_close st.rel (r.user.getD "") now,
          relatorios_fechados := st.relatorios_fechados + 1 }
      else st
    if r.cmd = 0 then { st with skipped_cmd0 := st.skipped_cmd0 + 1 }
    else if r.tid ∈ CALIBRATION_TAGS then
      { st with skipped_calibration := st.skipped_calibration + 1 }
    else
      { st with rows_to_save := st.rows_to_save ++
          [{ tag_number := r.tid, da := r.floats.map apply_offset,
             kx := apply_offset r.kx, ky := apply_offset r.ky }] }

/-- The `Union[str, List[str]]` request body of `ingest_dados_crus`. -/
inductive Payload where
  | str : String → Payload
  | list : List String → Payload

/-- Python `str.splitlines()` restricted to `\n` separators: the empty
string has no lines, and a trailing newline does not open a final empty
line. -/
def splitLines (s : String) : List String :=
  if s.data = [] then []
  else
    let pieces := splitOnChar '\n' [] s.data
    if pieces.getLast? = some "" then pieces.dropLast else pieces

/-- Normalization of the payload (lines 157-160): a string is split into
lines, a list is taken as is; blank entries are dropped in both cases. -/
def normalizePayload (p : Payload) : List String :=
  match p with
  | .str s => (splitLines s).filter (fun ln => pyStrip ln != "")
  | .list l => l.filter (fun ln => pyStrip ln != "")

/-- The batch summary of `ingest_dados_crus` (forwarding and schema debug
fields omitted). -/
structure BatchResp where
  saved : Nat
  skipped_cmd0 : Nat
  skipped_calibration : Nat
  skipped_invalid : Nat
  relatorios_abertos : Nat
  relatorios_fechados : Nat
deriving DecidableEq

/-- The `/dados-crus/ingest` endpoint: an empty normalized payload is a 400
rejected-request fault raised before any row is touched; otherwise the
parse loop runs over every line and the aggregate counters are returned.
Storage commit is modelled as succeeding; its rows are `rows_to_save`. -/
def ingest_dados_crus (now : ℚ) (rel : RelState) (p : Payload) :
    Except Nat (BatchResp × RelState × List SaveRow) :=
  let lines := normalizePayload p
  if lines = [] then .error 400
  else
    let fin := lines.foldl (processLine now) (initBatch rel)
    .ok ({ saved := fin.rows_to_save.length,
           skipped_cmd0 := fin.skipped_cmd0,
           skipped_calibration := fin.skipped_calibration,
           skipped_invalid := fin.skipped_invalid,
           relatorios_abertos := fin.relatorios_abertos,
           relatorios_fechados := fin.relatorios_fechados },
          fin.rel, fin.rows_to_save)

/-! ### processamento_crus.py: distance validation and the LSQ solver -/

/-- `NO_READING_VALUE`: raw zero after the 40 cm offset. -/
def NO_READING_VALUE : ℚ := -40

/-- `_EPS = 1e-9`. -/
def EPS : ℚ := 1 / 1000000000

/-- `processamento_crus._valid_distance`: a number, not the −40 sentinel
(within 1e-9), and strictly positive. -/
def valid_distance (d : Option ℚ) : Bool :=
  match d with
  | none => false
  | some d =>
    if |d - NO_READING_VALUE| < EPS then false
    else decide (d > 0)

/-- The accumulated normal-equations system `A^T A` and `A^T b` of
`_solve_xy_lsq`. -/
structure LsqAcc where
  a11 : ℚ
  a12 : ℚ
  a22 : ℚ
  b1 : ℚ
  b2 : ℚ
deriving DecidableEq

/-- The accumulation loop of `_solve_xy_lsq` (lines 75-86): reference
anchor `ref`, one linearized equation per remaining anchor. -/
def lsqAcc (ref : ℚ × ℚ × ℚ) (pts : List (ℚ × ℚ × ℚ)) : LsqAcc :=
  pts.foldl
    (fun acc p =>
      let ai1 := 2 * (p.1 - ref.1)
      let ai2 := 2 * (p.2.1 - ref.2.1)
      let bi := (p.2.2 * p.2.2 - ref.2.2 * ref.2.2) -
        (p.1 * p.1 + p.2.1 * p.2.1) + (ref.1 * ref.1 + ref.2.1 * ref.2.1)
      { a11 := acc.a11 + ai1 * ai1, a12 := acc.a12 + ai1 * ai2,
        a22 := acc.a22 + ai2 * ai2, b1 := acc.b1 + ai1 * bi,
        b2 := acc.b2 + ai2 * bi })
    { a11 := 0, a12 := 0, a22 := 0, b1 := 0, b2 := 0 }

/-- The determinant of the accumulated 2×2 system, with the last anchor as
reference and the others contributing equations. -/
def lsqDet (anchors : List (ℚ × ℚ × ℚ)) : ℚ :=
  match anchors.getLast? with
  | none => 0
  | some ref =>
    let acc := lsqAcc ref anchors.dropLast
    acc.a11 * acc.a22 - acc.a12 * acc.a12

/-- `processamento_crus._solve_xy_lsq`: fewer than 3 anchors or
`|det| < _EPS` is unsolvable; otherwise the closed-form 2×2 inverse. -/
def solve_xy_lsq (anchors : List (ℚ × ℚ × ℚ)) : Option (ℚ × ℚ) :=
  if anchors.length < 3 then none
  else
    match anchors.getLast? with
    | none => none
    | some ref =>
      let acc := lsqAcc ref anchors.dropLast
      let det := acc.a11 * acc.a22 - acc.a12 * acc.a12
      if |det| < EPS then none
      else
        let inv11 := acc.a22 / det
        let inv12 := -acc.a12 / det
        let inv22 := acc.a11 / det
        some (inv11 * acc.b1 + inv12 * acc.b2, inv12 * acc.b1 + inv22 * acc.b2)

/-! ### processamento_crus.py: motion cache and the processing loop -/

/-- `math.hypot`. -/
noncomputable def hypotR (dx dy : ℝ) : ℝ := Real.sqrt (dx * dx + dy * dy)

/-- Python `int()` truncation toward zero on a rational. -/
def pyInt (q : ℚ) : Int := if 0 ≤ q then ⌊q⌋ else -⌊-q⌋

/-- The `LAST_POS` cache: last `(x, y, timestamp)` per tag, dict semantics. -/
def Cache := List (String × (ℚ × ℚ × ℚ))

def cacheGet : Cache → String → Option (ℚ × ℚ × ℚ)
  | [], _ => none
  | (t, v) :: rest, tag => if t = tag then some v else cacheGet rest tag

def cacheSet : Cache → String → (ℚ × ℚ × ℚ) → Cache
  | [], tag, v => [(tag, v)]
  | (t, w) :: rest, tag, v =>
    if t = tag then (tag, v) :: rest else (t, w) :: cacheSet rest tag v

/-- Lines 180-195 of `ingest_processados`: first fix of a tag yields
`(None, None)`; later fixes yield the hypot displacement and the
truncated non-negative time delta; the cache entry is overwritten with the
new fix in both cases. -/
noncomputable def motion_update (cache : Cache) (tag : String)
    (x y t : ℚ) : (Option ℝ × Option Int) × Cache :=
  match cacheGet cache tag with
  | none => ((none, none), cacheSet cache tag (x, y, t))
  | some (lx, ly, lt) =>
    let dist := hypotR ((x : ℝ) - (lx : ℝ)) ((y : ℝ) - (ly : ℝ))
    let delta := t - lt
    let tempo := if 0 ≤ delta then pyInt delta else 0
    ((some dist, some tempo), cacheSet cache tag (x, y, t))

/-- An element of `payload["dados"]`, numeric fields already through
`_to_float_or_none` and the timestamp through `_parse_iso_ts` (modelled as
rational seconds). -/
structure ProcItem where
  tag_number : String
  da : List (Option ℚ)
  kx : Option ℚ
  ky : Option ℚ
  criado_em : ℚ

/-- A `distancias_processadas` row (models.DistanciaProcessada). -/
structure ProcRow where
  tag_number : String
  x : ℚ
  y : ℚ
  distancia_percorrida : Option ℝ
  tempo_em_segundos : Option Int
  criado_em : ℚ

/-- `da[i]` if present, else `None` (lines 149-152). -/
def daSlot (da : List (Option ℚ)) (i : Nat) : Option ℚ :=
  (da.get? i).getD none

/-- The candidate corner anchors `A0..A3` paired with slots 0-3 (lines
155-160). -/
def anchors_all (kx ky : ℚ) (d0 d1 d2 d3 : Option ℚ) :
    List (ℚ × ℚ × Option ℚ) :=
  [(0, 0, d0), (kx, 0, d1), (0, ky, d2), (kx, ky, d3)]

/-- The valid anchors (lines 161-163). -/
def anchors_valid (kx ky : ℚ) (d0 d1 d2 d3 : Option ℚ) :
    List (ℚ × ℚ × ℚ) :=
  (anchors_all kx ky d0 d1 d2 d3).filterMap
    (fun a => match a.2.2 with
      | none => none
      | some d => if valid_distance (some d) then some (a.1, a.2.1, d) else none)

/-- One iteration of the loop of `ingest_processados` (lines 134-207):
skip on empty tag, invalid spans, fewer than 3 valid anchors or a
degenerate system; otherwise solve, update the motion cache and stage a
processed row. -/
noncomputable def procStep (cache : Cache) (it : ProcItem) :
    Cache × Option ProcRow :=
  if pyStrip it.tag_number = "" then (cache, none)
  else
    match it.kx, it.ky with
    | some kx, some ky =>
      if kx ≤ 0 ∨ ky ≤ 0 then (cache, none)
      else
        if (anchors_valid kx ky (daSlot it.da 0) (daSlot it.da 1)
            (daSlot it.da 2) (daSlot it.da 3)).length < 3 then (cache, none)
        else
          match solve_xy_lsq (anchors_valid kx ky (daSlot it.da 0)
              (daSlot it.da 1) (daSlot it.da 2) (daSlot it.da 3)) with
          | none => (cache, none)
          | some (x, y) =>
            let r := motion_update cache (pyStrip it.tag_number) x y it.criado_em
            (r.2, some
              { tag_number := pyStrip it.tag_number, x := x, y := y,
                distancia_percorrida := r.1.1, tempo_em_segundos := r.1.2,
                criado_em := it.criado_em })
    | _, _ => (cache, none)

/-- The full loop: cache threaded left to right, skipped items contribute
no row. -/
noncomputable def ingest_core (cache : Cache) (items : List ProcItem) :
    Cache × List ProcRow :=
  items.foldl
    (fun acc it =>
      let r := procStep acc.1 it
      (r.1, acc.2 ++ (r.2.map (fun row => [row])).getD []))
    (cache, [])

/-- The `/processamento-crus/ingest` endpoint, with the commit outcome of
the surrounding transaction injected as `commitOk`: an empty `dados` list
is a 400 fault; no staged rows is a saved=0 success without a commit; a
failed commit rolls back the table but never the in-memory cache. -/
noncomputable def ingest_processados (commitOk : Bool) (cache : Cache)
    (db : List ProcRow) (dados : List ProcItem) :
    Except Nat Nat × Cache × List ProcRow :=
  if dados.isEmpty then (.error 400, cache, db)
  else
    let r := ingest_core cache dados
    if r.2.isEmpty then (.ok 0, r.1, db)
    else if commitOk then (.ok r.2.length, r.1, db ++ r.2)
    else (.error 500, r.1, db)

/-! ### Support definitions for the session invariant -/

/-- Number of open (`fim_do_relatorio IS NULL`) sessions of a user. -/
def countOpen (rows : List RelRow) (u : String) : Nat :=
  (rows.filter (fun r =>
      r.user == some u && r.fim_do_relatorio == none)).length

/-- A session command reaching the report state machine: `cmd=1` with its
span snapshot, or `cmd=3`; both carry the wall-clock time. -/
inductive SessStep where
  | openCmd (user : String) (kx ky : Option ℚ) (now : ℚ)
  | closeCmd (user : String) (now : ℚ)

def applyStep (st : RelState) : SessStep → RelState
  | .openCmd u kx ky now => relatorio_open_or_update st u kx ky now
  | .closeCmd u now => relatorio_close st u now

def applySteps (st : RelState) (steps : List SessStep) : RelState :=
  steps.foldl applyStep st

/-! ### Support definitions for the mandatory-field property of `RE_LINE` -/

/-- `w` occurs, case-insensitively, as a substring of `s`. -/
def containsCI (w s : List Char) : Prop :=
  ∃ i, (stripLit w (s.drop i)).isSome = true

/-- The top-level literal items of a pattern: literals every successful
match must consume (optional groups are excluded; the capture groups of
`RE_LINE` contain no literals, so for `RE_LINE` these are all of them). -/
def mandLits : List RItem → List (List Char)
  | [] => []
  | .lit l :: rest => l :: mandLits rest
  | _ :: rest => mandLits rest

/-! ## Helper lemmas -/

theorem findOpen_none_countOpen (rows : List RelRow) (u : String)
    (h : findOpen rows u = none) : countOpen rows u = 0 := by
  unfold findOpen at h
  unfold countOpen
  cases hf : rows.filter (fun r =>
      r.user == some u && r.fim_do_relatorio == none) with
  | nil => rfl
  | cons a l =>
    rw [hf] at h
    exfalso
    have key : ∀ (l : List RelRow) (acc : Nat),
        (l.foldl (fun acc r =>
          match acc with
          | none => some r.relatorio_number
          | some i => some (max i r.relatorio_number)) (some acc)) ≠ none := by
      intro l
      induction l with
      | nil => intro acc; simp
      | cons b t ih => intro acc; simpa using ih _
    rw [List.foldl_cons] at h
    exact key l a.relatorio_number h

theorem countOpen_append (rows : List RelRow) (r : RelRow) (u : String) :
    countOpen (rows ++ [r]) u = countOpen rows u +
      (if r.user == some u && r.fim_do_relatorio == none then 1 else 0) := by
  unfold countOpen
  rw [List.filter_append, List.length_append]
  cases hp : (r.user == some u && r.fim_do_relatorio == none) <;>
    simp [List.filter, hp]

theorem countOpen_map_eq (rows : List RelRow) (u : String)
    (f : RelRow → RelRow)
    (hf : ∀ r, ((f r).user == some u && (f r).fim_do_relatorio == none) =
      (r.user == some u && r.fim_do_relatorio == none)) :
    countOpen (rows.map f) u = countOpen rows u := by
  unfold countOpen
  induction rows with
  | nil => rfl
  | cons a t ih =>
    simp only [List.map_cons, List.filter_cons, hf a]
    split <;> simpa using ih

theorem countOpen_map_le (rows : List RelRow) (u : String)
    (f : RelRow → RelRow)
    (hf : ∀ r, ((f r).user == some u && (f r).fim_do_relatorio == none) = true →
      (r.user == some u && r.fim_do_relatorio == none) = true) :
    countOpen (rows.map f) u ≤ countOpen rows u := by
  unfold countOpen
  induction rows with
  | nil => simp
  | cons a t ih =>
    simp only [List.map_cons, List.filter_cons]
    by_cases h : ((f a).user == some u && (f a).fim_do_relatorio == none) = true
    · rw [if_pos h, if_pos (hf a h)]
      simpa using ih
    · rw [if_neg h]
      split
      · exact Nat.le_succ_of_le ih
      · exact ih

theorem open_or_update_countOpen (st : RelState) (u' u : String)
    (kx ky : Option ℚ) (now : ℚ) (h : countOpen st.rows u ≤ 1) :
    countOpen (relatorio_open_or_update st u' kx ky now).rows u ≤ 1 := by
  unfold relatorio_open_or_update
  split
  · exact h
  · cases hfo : findOpen st.rows u' with
    | none =>
      simp only
      rw [countOpen_append]
      by_cases hu : u' = u
      · subst hu
        rw [findOpen_none_countOpen st.rows u' hfo]
        simp
      · have : ((some u' : Option String) == some u) = false := by
          simp [hu]
        simp [this]
        exact h
    | some rid =>
      simp only
      rw [countOpen_map_eq]
      · exact h
      · intro r
        split <;> rfl

theorem close_countOpen (st : RelState) (u' u : String) (now : ℚ)
    (h : countOpen st.rows u ≤ 1) :
    countOpen (relatorio_close st u' now).rows u ≤ 1 := by
  unfold relatorio_close
  split
  · exact h
  · cases hfo : findOpen st.rows u' with
    | none => exact h
    | some rid =>
      simp only
      refine le_trans (countOpen_map_le _ _ _ ?_) h
      intro r hr
      by_cases hid : r.relatorio_number = rid
      · rw [if_pos hid] at hr
        simp at hr
      · rwa [if_neg hid] at hr

theorem applyStep_countOpen (st : RelState) (s : SessStep) (u : String)
    (h : countOpen st.rows u ≤ 1) :
    countOpen (applyStep st s).rows u ≤ 1 := by
  cases s with
  | openCmd u' kx ky now => exact open_or_update_countOpen st u' u kx ky now h
  | closeCmd u' now => exact close_countOpen st u' u now h

theorem applySteps_countOpen (steps : List SessStep) (st : RelState)
    (u : String) (h : countOpen st.rows u ≤ 1) :
    countOpen (applySteps st steps).rows u ≤ 1 := by
  induction steps generalizing st with
  | nil => exact h
  | cons s t ih => exact ih _ (applyStep_countOpen st s u h)

/-! ## Claim theorems -/

/-- C1 (code bug): the spec's recovery property fails on the code.  For the
non-collinear anchors (0,0), (3,0), (0,4) with distances 5, 4, 3 that are
exactly the Euclidean distances from the point (3,4), `_solve_xy_lsq`
returns (−3,−4) — the negation of the true position, and farther than 1e-6
from it.  The right-hand side `(di²−dj²) − (xi²+yi²) + (xj²+yj²)` of the
accumulated equations is the negation of the correct linearization, so the
solver always returns the reflected point. -/
theorem C1_solver_negates_position :
    ((0 - 3 : ℚ) ^ 2 + (0 - 4 : ℚ) ^ 2 = 5 ^ 2 ∧
      (3 - 3 : ℚ) ^ 2 + (0 - 4 : ℚ) ^ 2 = 4 ^ 2 ∧
      (0 - 3 : ℚ) ^ 2 + (4 - 4 : ℚ) ^ 2 = 3 ^ 2) ∧
    (3 - 0 : ℚ) * (4 - 0) - (0 - 0) * (0 - 0) ≠ 0 ∧
    solve_xy_lsq [(0, 0, 5), (3, 0, 4), (0, 4, 3)] = some (-3, -4) ∧
    ¬ |(-3 : ℚ) - 3| ≤ 1 / 1000000 := by
  refine ⟨⟨by norm_num, by norm_num, by norm_num⟩, by norm_num, ?_, by
    rw [abs_of_nonpos (by norm_num)]
    norm_num⟩
  norm_num [solve_xy_lsq, lsqAcc, EPS, List.getLast?, List.dropLast, abs]

/-- C4: with fewer than 3 valid anchors, or a normal-equations determinant
below `_EPS` in absolute value, `_solve_xy_lsq` returns `None`; and the
processing loop of `ingest_processados` skips an item that produced no row
(its cache is untouched and the rest of the batch is processed
unchanged). -/
theorem C4_unsolvable_returns_none_and_is_skipped :
    (∀ anchors : List (ℚ × ℚ × ℚ),
      anchors.length < 3 ∨ |lsqDet anchors| < EPS →
        solve_xy_lsq anchors = none) ∧
    (∀ (cache : Cache) (it : ProcItem),
      (procStep cache it).2 = none → procStep cache it = (cache, none)) ∧
    (∀ (cache : Cache) (it : ProcItem) (rest : List ProcItem),
      procStep cache it = (cache, none) →
        ingest_core cache (it :: rest) = ingest_core cache rest) := by
  refine ⟨?_, ?_, ?_⟩
  · intro anchors h
    rcases h with h | h
    · simp [solve_xy_lsq, h]
    · by_cases h3 : anchors.length < 3
      · simp [solve_xy_lsq, h3]
      · unfold solve_xy_lsq
        rw [if_neg h3]
        cases hl : anchors.getLast? with
        | none => rfl
        | some ref =>
          unfold lsqDet at h
          rw [hl] at h
          simp only
          rw [if_pos h]
  · intro cache it h
    unfold procStep at h ⊢
    by_cases h1 : pyStrip it.tag_number = ""
    · rw [if_pos h1]
    · rw [if_neg h1] at h ⊢
      cases hkx : it.kx with
      | none => rfl
      | some kx =>
        cases hky : it.ky with
        | none => rfl
        | some ky =>
          rw [hkx, hky] at h
          simp only at h ⊢
          by_cases h2 : kx ≤ 0 ∨ ky ≤ 0
          · rw [if_pos h2]
          · rw [if_neg h2] at h ⊢
            by_cases h3 : (anchors_valid kx ky (daSlot it.da 0) (daSlot it.da 1)
                (daSlot it.da 2) (daSlot it.da 3)).length < 3
            · rw [if_pos h3]
            · rw [if_neg h3] at h ⊢
              cases hs : solve_xy_lsq (anchors_valid kx ky (daSlot it.da 0)
                  (daSlot it.da 1) (daSlot it.da 2) (daSlot it.da 3)) with
              | none => rfl
              | some xy =>
                rw [hs] at h
                cases xy
                simp at h
  · intro cache it rest h
    unfold ingest_core
    rw [List.foldl_cons]
    simp only [h]
    rfl

/-- C5: a distance slot participates in solving iff it is present, strictly
positive and not within 1e-9 of the −40 no-reading sentinel; and the
candidate anchors are exactly the rectangle corners A0..A3 paired with
distance slots 0-3, filtered by that predicate. -/
theorem C5_anchor_participation :
    (∀ d : Option ℚ, valid_distance d = true ↔
      ∃ v, d = some v ∧ 0 < v ∧ ¬ |v - NO_READING_VALUE| < EPS) ∧
    (∀ kx ky d0 d1 d2 d3,
      anchors_all kx ky d0 d1 d2 d3 =
        [(0, 0, d0), (kx, 0, d1), (0, ky, d2), (kx, ky, d3)] ∧
      anchors_valid kx ky d0 d1 d2 d3 =
        (anchors_all kx ky d0 d1 d2 d3).filterMap
          (fun a => a.2.2.bind (fun d =>
            if valid_distance (some d) then some (a.1, a.2.1, d) else none))) := by
  constructor
  · intro d
    cases d with
    | none => simp [valid_distance]
    | some v =>
      show (if |v - NO_READING_VALUE| < EPS then false else decide (v > 0)) =
          true ↔ _
      by_cases h : |v - NO_READING_VALUE| < EPS
      · rw [if_pos h]
        constructor
        · intro hf; exact absurd hf (by simp)
        · rintro ⟨w, hw, _, hns⟩
          cases hw
          exact absurd h hns
      · rw [if_neg h]
        constructor
        · intro hd
          exact ⟨v, rfl, by simpa using hd, h⟩
        · rintro ⟨w, hw, hpos, _⟩
          cases hw
          simpa using hpos
  · intro kx ky d0 d1 d2 d3
    refine ⟨rfl, ?_⟩
    unfold anchors_valid
    congr 1
    funext a
    cases a.2.2 <;> rfl

/-- C4 witness: duplicate anchor positions give a zero determinant, hence
unsolvable; two anchors are too few. -/
theorem C4_unsolvable_witness :
    solve_xy_lsq [(0, 0, 1), (0, 0, 1), (0, 0, 2)] = none ∧
    solve_xy_lsq [(0, 0, 1), (1, 0, 1)] = none :=
  ⟨C4_unsolvable_returns_none_and_is_skipped.1 _ (Or.inr (by
      norm_num [lsqDet, lsqAcc, EPS, List.getLast?, List.dropLast, abs])),
   C4_unsolvable_returns_none_and_is_skipped.1 _ (Or.inl (by decide))⟩

/-- C5 witness: a calibrated 60 cm reading participates in solving; the
−40 sentinel and an absent slot do not. -/
theorem C5_anchor_participation_witness :
    valid_distance (some 60) = true ∧
    valid_distance (some (-40)) = false ∧
    valid_distance none = false :=
  ⟨(C5_anchor_participation.1 (some 60)).mpr
      ⟨60, rfl, by norm_num, by norm_num [NO_READING_VALUE, EPS]⟩,
   by norm_num [valid_distance, NO_READING_VALUE, EPS],
   by norm_num [valid_distance]⟩

/-- C3: the motion-cache update returns `(None, None)` and stores the fix on
a tag's first-ever fix; on a later fix it returns the Euclidean distance to
the cached position and `max(0, floor(t2 − t1))` seconds (a negative delta
clamps to 0), and the cache entry is overwritten with the new fix in both
cases. -/
theorem C3_motion_cache_update :
    ∀ (cache : Cache) (tag : String) (x y t : ℚ),
      (cacheGet cache tag = none →
        motion_update cache tag x y t =
          ((none, none), cacheSet cache tag (x, y, t))) ∧
      (∀ x1 y1 t1, cacheGet cache tag = some (x1, y1, t1) →
        motion_update cache tag x y t =
          ((some (Real.sqrt (((x : ℝ) - (x1 : ℝ)) ^ 2 +
              ((y : ℝ) - (y1 : ℝ)) ^ 2)),
            some (max 0 ⌊t - t1⌋)), cacheSet cache tag (x, y, t))) := by
  intro cache tag x y t
  constructor
  · intro h
    unfold motion_update
    rw [h]
  · intro x1 y1 t1 h
    unfold motion_update
    rw [h]
    have e1 : hypotR ((x : ℝ) - (x1 : ℝ)) ((y : ℝ) - (y1 : ℝ)) =
        Real.sqrt (((x : ℝ) - (x1 : ℝ)) ^ 2 + ((y : ℝ) - (y1 : ℝ)) ^ 2) := by
      unfold hypotR
      congr 1
      ring
    have e2 : (if 0 ≤ t - t1 then pyInt (t - t1) else 0) = max 0 ⌊t - t1⌋ := by
      by_cases hd : 0 ≤ t - t1
      · rw [if_pos hd]
        unfold pyInt
        rw [if_pos hd]
        exact (max_eq_right (Int.floor_nonneg.mpr hd)).symm
      · rw [if_neg hd]
        exact (max_eq_left (Int.floor_nonpos
          (le_of_lt (lt_of_not_le hd)))).symm
    simp only [e1, e2]

/-- C3 witness: a second fix of tag "4" at (3,4) two seconds after a first
fix at (0,0) travels the 3-4-5 hypotenuse. -/
theorem C3_motion_cache_update_witness :
    motion_update [("4", (0, 0, 10))] "4" 3 4 12 =
      ((some 5, some 2), [("4", (3, 4, 12))]) := by
  have h := (C3_motion_cache_update [("4", (0, 0, 10))] "4" 3 4 12).2 0 0 10
    (by simp [cacheGet])
  rw [h]
  have e1 : Real.sqrt ((((3 : ℚ) : ℝ) - ((0 : ℚ) : ℝ)) ^ 2 +
      (((4 : ℚ) : ℝ) - ((0 : ℚ) : ℝ)) ^ 2) = 5 := by
    rw [show (((3 : ℚ) : ℝ) - ((0 : ℚ) : ℝ)) ^ 2 +
        (((4 : ℚ) : ℝ) - ((0 : ℚ) : ℝ)) ^ 2 = 5 ^ 2 by push_cast; norm_num]
    exact Real.sqrt_sq (by norm_num)
  have e2 : max 0 ⌊(12 : ℚ) - 10⌋ = 2 := by norm_num
  rw [e1, e2]
  simp [cacheSet]

/-- C7: starting from an empty report table, at most one open session per
user ever exists under any sequence of session commands; `cmd=1` with no
open session inserts an open row with `inicio_do_relatorio = now` and the
span snapshot; with an open session it updates that row in place,
backfilling `inicio_do_relatorio` only if unset and overwriting the span
columns only with non-null values; `cmd=3` closes the most recent open
session and is a no-op when none is open. -/
theorem C7_at_most_one_open_session :
    (∀ (steps : List SessStep) (u : String),
      countOpen (applySteps ⟨1, []⟩ steps).rows u ≤ 1) ∧
    (∀ (st : RelState) (u : String) (kx ky : Option ℚ) (now : ℚ),
      u ≠ "" → findOpen st.rows u = none →
      relatorio_open_or_update st u kx ky now =
        { nextId := st.nextId + 1,
          rows := st.rows ++
            [{ relatorio_number := st.nextId, inicio_do_relatorio := some now,
               fim_do_relatorio := none, kx := fmt_str (apply_offset kx),
               ky := fmt_str (apply_offset ky), user := some u }] }) ∧
    (∀ (st : RelState) (u : String) (kx ky : Option ℚ) (now : ℚ) (rid : Nat),
      u ≠ "" → findOpen st.rows u = some rid →
      relatorio_open_or_update st u kx ky now =
        { st with rows := st.rows.map (fun r =>
            if r.relatorio_number = rid then
              { r with
                inicio_do_relatorio := some (r.inicio_do_relatorio.getD now),
                kx := match fmt_str (apply_offset kx) with
                  | some v => some v
                  | none => r.kx,
                ky := match fmt_str (apply_offset ky) with
                  | some v => some v
                  | none => r.ky }
            else r) }) ∧
    (∀ (st : RelState) (u : String) (now : ℚ) (rid : Nat),
      u ≠ "" → findOpen st.rows u = some rid →
      relatorio_close st u now =
        { st with rows := st.rows.map (fun r =>
            if r.relatorio_number = rid then
              { r with fim_do_relatorio := some now }
            else r) }) ∧
    (∀ (st : RelState) (u : String) (now : ℚ),
      findOpen st.rows u = none → relatorio_close st u now = st) := by
  refine ⟨?_, ?_, ?_, ?_, ?_⟩
  · intro steps u
    exact applySteps_countOpen steps ⟨1, []⟩ u (by simp [countOpen])
  · intro st u kx ky now hu hf
    unfold relatorio_open_or_update
    rw [if_neg hu, hf]
  · intro st u kx ky now rid hu hf
    unfold relatorio_open_or_update
    rw [if_neg hu, hf]
  · intro st u now rid hu hf
    unfold relatorio_close
    rw [if_neg hu, hf]
  · intro st u now hf
    unfold relatorio_close
    split
    · rfl
    · rw [hf]

/-- C7 witness: open, re-open, close, re-close for one user leaves at most
one open session, and the first open inserts the expected row. -/
theorem C7_at_most_one_open_session_witness :
    countOpen (applySteps ⟨1, []⟩
      [.openCmd "alice" none none 0, .openCmd "alice" none none 1,
       .closeCmd "alice" 2, .closeCmd "alice" 3]).rows "alice" ≤ 1 ∧
    relatorio_open_or_update ⟨1, []⟩ "alice" none none 0 =
      { nextId := 2,
        rows := [{ relatorio_number := 1, inicio_do_relatorio := some 0,
                   fim_do_relatorio := none, kx := none, ky := none,
                   user := some "alice" }] } := by
  constructor
  · exact C7_at_most_one_open_session.1 _ "alice"
  · have h := C7_at_most_one_open_session.2.1 ⟨1, []⟩ "alice" none none 0
      (by decide) rfl
    rw [h]
    rfl

/-- A successful literal strip consumes exactly the literal's length. -/
theorem stripLit_eq_drop : ∀ (l s s1 : List Char),
    stripLit l s = some s1 → s1 = List.drop l.length s := by
  intro l
  induction l with
  | nil =>
    intro s s1 h
    simp only [stripLit, Option.some.injEq] at h
    simp [← h]
  | cons c l ih =>
    intro s s1 h
    cases s with
    | nil => simp [stripLit] at h
    | cons c2 t =>
      simp only [stripLit] at h
      by_cases hc : c.toLower = c2.toLower
      · rw [if_pos hc] at h
        simpa using ih t s1 h
      · rw [if_neg hc] at h
        exact absurd h (by simp)

theorem containsCI_of_drop (w s : List Char) (j : Nat)
    (h : containsCI w (s.drop j)) : containsCI w s := by
  obtain ⟨i, hi⟩ := h
  exact ⟨j + i, by rwa [List.drop_drop] at hi⟩

theorem mandLits_nil : mandLits [] = [] := rfl

theorem mandLits_lit (l : List Char) (rest : List RItem) :
    mandLits (.lit l :: rest) = l :: mandLits rest := rfl

theorem mandLits_starG (p : Char → Bool) (rest : List RItem) :
    mandLits (.starG p :: rest) = mandLits rest := rfl

theorem mandLits_starL (p : Char → Bool) (rest : List RItem) :
    mandLits (.starL p :: rest) = mandLits rest := rfl

theorem mandLits_plusG (p : Char → Bool) (rest : List RItem) :
    mandLits (.plusG p :: rest) = mandLits rest := rfl

theorem mandLits_optC (p : Char → Bool) (rest : List RItem) :
    mandLits (.optC p :: rest) = mandLits rest := rfl

theorem mandLits_group (g : GName) (items rest : List RItem) :
    mandLits (.group g items :: rest) = mandLits rest := rfl

theorem mandLits_optG (items rest : List RItem) :
    mandLits (.optG items :: rest) = mandLits rest := rfl

/-- Soundness of the matcher with respect to mandatory literals: a
successful match consumed, in particular, every mandatory literal of the
pattern (each occurs case-insensitively in the searched suffix), and the
continuation was eventually invoked on some residual suffix. -/
theorem mtch_mand (fuel : Nat) :
    ∀ (items : List RItem) (s : List Char) (caps : Caps)
      (k : List Char → Caps → Option Caps) (r : Caps),
      mtch fuel items s caps k = some r →
      (∀ w ∈ mandLits items, containsCI w s) ∧
      ∃ j caps2, k (s.drop j) caps2 = some r := by
  induction fuel with
  | zero =>
    intro items s caps k r h
    simp [mtch] at h
  | succ fuel ih =>
    intro items s caps k r h
    cases items with
    | nil =>
      refine ⟨by simp [mandLits_nil], 0, caps, ?_⟩
      simpa [mtch] using h
    | cons item rest =>
      cases item with
      | lit l =>
        simp only [mtch] at h
        cases hsl : stripLit l s with
        | none =>
          rw [hsl] at h
          exact absurd h (by simp)
        | some s1 =>
          rw [hsl] at h
          obtain ⟨hw, j, caps2, hk⟩ := ih rest s1 caps k r h
          have hd : s1 = List.drop l.length s := stripLit_eq_drop l s s1 hsl
          constructor
          · intro w hwmem
            rw [mandLits_lit, List.mem_cons] at hwmem
            rcases hwmem with rfl | hwmem
            · exact ⟨0, by simp [hsl]⟩
            · exact containsCI_of_drop w s l.length (hd ▸ hw w hwmem)
          · refine ⟨l.length + j, caps2, ?_⟩
            rw [← List.drop_drop, ← hd]
            exact hk
      | starG p =>
        simp only [mtch] at h
        obtain ⟨i, _, hi⟩ := List.exists_of_findSome?_eq_some h
        obtain ⟨hw, j, caps2, hk⟩ := ih rest (s.drop i) caps k r hi
        refine ⟨?_, i + j, caps2, by rw [← List.drop_drop]; exact hk⟩
        intro w hwmem
        rw [mandLits_starG] at hwmem
        exact containsCI_of_drop w s i (hw w hwmem)
      | starL p =>
        simp only [mtch] at h
        obtain ⟨i, _, hi⟩ := List.exists_of_findSome?_eq_some h
        obtain ⟨hw, j, caps2, hk⟩ := ih rest (s.drop i) caps k r hi
        refine ⟨?_, i + j, caps2, by rw [← List.drop_drop]; exact hk⟩
        intro w hwmem
        rw [mandLits_starL] at hwmem
        exact containsCI_of_drop w s i (hw w hwmem)
      | plusG p =>
        simp only [mtch] at h
        obtain ⟨i, _, hi⟩ := List.exists_of_findSome?_eq_some h
        obtain ⟨hw, j, caps2, hk⟩ := ih rest (s.drop (i + 1)) caps k r hi
        refine ⟨?_, (i + 1) + j, caps2, by rw [← List.drop_drop]; exact hk⟩
        intro w hwmem
        rw [mandLits_plusG] at hwmem
        exact containsCI_of_drop w s (i + 1) (hw w hwmem)
      | optC p =>
        cases s with
        | nil =>
          simp only [mtch] at h
          obtain ⟨hw, j, caps2, hk⟩ := ih rest [] caps k r h
          exact ⟨fun w hwmem => hw w (by rwa [mandLits_optC] at hwmem),
            j, caps2, hk⟩
        | cons c t =>
          simp only [mtch] at h
          by_cases hc : p c
          · rw [if_pos hc] at h
            cases hin : mtch fuel rest t caps k with
            | some r2 =>
              rw [hin] at h
              simp only [Option.some.injEq] at h
              subst h
              obtain ⟨hw, j, caps2, hk⟩ := ih rest t caps k r2 hin
              refine ⟨?_, 1 + j, caps2, by rw [← List.drop_drop]; exact hk⟩
              intro w hwmem
              rw [mandLits_optC] at hwmem
              exact containsCI_of_drop w (c :: t) 1 (hw w hwmem)
            | none =>
              rw [hin] at h
              obtain ⟨hw, j, caps2, hk⟩ := ih rest (c :: t) caps k r h
              exact ⟨fun w hwmem => hw w (by rwa [mandLits_optC] at hwmem),
                j, caps2, hk⟩
          · rw [if_neg hc] at h
            obtain ⟨hw, j, caps2, hk⟩ := ih rest (c :: t) caps k r h
            exact ⟨fun w hwmem => hw w (by rwa [mandLits_optC] at hwmem),
              j, caps2, hk⟩
      | group g gitems =>
        simp only [mtch] at h
        obtain ⟨_, j, caps2, hk1⟩ := ih gitems s caps _ r h
        obtain ⟨hw2, j2, caps3, hk⟩ := ih rest (s.drop j) _ k r hk1
        refine ⟨?_, j + j2, caps3, by rw [← List.drop_drop]; exact hk⟩
        intro w hwmem
        rw [mandLits_group] at hwmem
        exact containsCI_of_drop w s j (hw2 w hwmem)
      | optG gitems =>
        simp only [mtch] at h
        cases hout : mtch fuel gitems s caps
            (fun s2 caps2 => mtch fuel rest s2 caps2 k) with
        | some r2 =>
          rw [hout] at h
          simp only [Option.some.injEq] at h
          subst h
          obtain ⟨_, j, caps2, hk1⟩ := ih gitems s caps _ r2 hout
          obtain ⟨hw2, j2, caps3, hk⟩ := ih rest (s.drop j) caps2 k r2 hk1
          refine ⟨?_, j + j2, caps3, by rw [← List.drop_drop]; exact hk⟩
          intro w hwmem
          rw [mandLits_optG] at hwmem
          exact containsCI_of_drop w s j (hw2 w hwmem)
        | none =>
          rw [hout] at h
          obtain ⟨hw, j, caps2, hk⟩ := ih rest s caps k r h
          exact ⟨fun w hwmem => hw w (by rwa [mandLits_optG] at hwmem),
            j, caps2, hk⟩

/-- A successful search consumed every mandatory literal of `RE_LINE`. -/
theorem reSearch_mand : ∀ (s : List Char) (m : Caps),
    reSearch s = some m → ∀ w ∈ mandLits reLine, containsCI w s := by
  intro s
  induction s with
  | nil =>
    intro m h w hw
    exact (mtch_mand 500 reLine [] {} (fun _ c => some c) m
      (by simpa [reSearch] using h)).1 w hw
  | cons c t ih =>
    intro m h w hw
    simp only [reSearch] at h
    cases hm : mtch 500 reLine (c :: t) {} (fun _ c2 => some c2) with
    | some r =>
      rw [hm] at h
      exact (mtch_mand 500 reLine (c :: t) {} _ r hm).1 w hw
    | none =>
      rw [hm] at h
      exact containsCI_of_drop w (c :: t) 1 (ih m h w hw)

/-- C2 counterexample: a line containing the tag-id field and the
parenthesised distance list but no `kx`/`ky` does NOT parse (the claim says
it still parses), and neither does a line with the mandatory fields out of
order. -/
theorem C2_counterexample_span_mandatory :
    parse_line "tid:4,range:(1,2,3)" = none ∧
    parse_line "range:(1,2),tid:4,kx:1,ky:2" = none := by
  constructor
  · decide
  · decide

/-- C2 amended: the span fields are mandatory, not optional.  Every line
that parses to a RawReading contains each of the labels `tid`, `range`,
`kx` and `ky` (case-insensitively), so a line containing only the tag-id
and the distance list is invalid; only `cmd` and `user` are optional —
exemplar lines with the four mandatory fields parse with and without them,
while exemplars missing any one mandatory field, or with `kx` and `ky`
swapped, do not parse. -/
theorem C2_amended_mandatory_fields :
    (∀ (line : String) (r : RawReading), parse_line line = some r →
      containsCI "tid".data line.data ∧ containsCI "range".data line.data ∧
      containsCI "kx".data line.data ∧ containsCI "ky".data line.data) ∧
    parse_line "tid:4,range:(1,2),kx:1,ky:2" =
      some ⟨"4", [some 1, some 2, none, none, none, none, none, none],
            some 1, some 2, 0, none⟩ ∧
    parse_line "tid:4,range:(1,2),kx:1,ky:2,cmd:3,user:bob" =
      some ⟨"4", [some 1, some 2, none, none, none, none, none, none],
            some 1, some 2, 3, some "bob"⟩ ∧
    parse_line "range:(1,2),kx:1,ky:2" = none ∧
    parse_line "tid:4,kx:1,ky:2" = none ∧
    parse_line "tid:4,range:(1,2),ky:2" = none ∧
    parse_line "tid:4,range:(1,2),kx:1" = none ∧
    parse_line "tid:4,range:(1,2),ky:2,kx:1" = none := by
  refine ⟨?_, by decide, by decide, by decide, by decide, by decide,
    by decide, by decide⟩
  intro line r h
  unfold parse_line at h
  cases hm : reSearch line.data with
  | none =>
    rw [hm] at h
    exact absurd h (by simp)
  | some m =>
    have hall := reSearch_mand line.data m hm
    exact ⟨hall "tid".data (by decide), hall "range".data (by decide),
           hall "kx".data (by decide), hall "ky".data (by decide)⟩

/-- C2 witness: the universal label-necessity conjunct instantiated at a
concrete accepted line. -/
theorem C2_amended_mandatory_fields_witness :
    containsCI "tid".data "tid:4,range:(1,2),kx:1,ky:2".data ∧
    containsCI "range".data "tid:4,range:(1,2),kx:1,ky:2".data ∧
    containsCI "kx".data "tid:4,range:(1,2),kx:1,ky:2".data ∧
    containsCI "ky".data "tid:4,range:(1,2),kx:1,ky:2".data :=
  C2_amended_mandatory_fields.1 "tid:4,range:(1,2),kx:1,ky:2"
    ⟨"4", [some 1, some 2, none, none, none, none, none, none],
      some 1, some 2, 0, none⟩ (by decide)

/-- C6: every accepted line yields exactly 8 distance slots; a token that is
empty, "nan" in any letter case, or unparsable as a float yields an absent
slot (never zero) without invalidating the line; the token list is
right-padded and truncated to 8. -/
theorem C6_exactly_eight_slots :
    (∀ (line : String) (r : RawReading),
      parse_line line = some r → r.floats.length = 8) ∧
    to_float_or_none "" = none ∧
    to_float_or_none "nan" = none ∧
    to_float_or_none "NaN" = none ∧
    to_float_or_none "NAN" = none ∧
    to_float_or_none "abc" = none ∧
    to_float_or_none " 12.5 " = some (mkRat 25 2) ∧
    parse_line "tid:9,range:(1,,x,nan,2),kx:1,ky:2" =
      some ⟨"9", [some 1, none, none, none, some 2, none, none, none],
            some 1, some 2, 0, none⟩ ∧
    parse_line "tid:9,range:(1,2,3,4,5,6,7,8,9,10),kx:1,ky:2" =
      some ⟨"9", [some 1, some 2, some 3, some 4, some 5, some 6, some 7,
            some 8], some 1, some 2, 0, none⟩ := by
  refine ⟨?_, by decide, by decide, by decide, by decide, by decide,
    by decide, by decide, by decide⟩
  intro line r h
  unfold parse_line at h
  cases hm : reSearch line.data with
  | none =>
    rw [hm] at h
    exact absurd h (by simp)
  | some m =>
    rw [hm] at h
    simp only [Option.some.injEq] at h
    rw [← h]
    simp only [List.length_map, List.length_take, List.length_append,
      List.length_replicate]
    exact Nat.min_eq_left (by omega)

/-- C6 witness: the universal 8-slot conjunct instantiated at a concrete
accepted line. -/
theorem C6_exactly_eight_slots_witness :
    (RawReading.mk "5" [some 7, none, none, none, none, none, none, none]
      (some 2) (some 3) 0 none).floats.length = 8 :=
  C6_exactly_eight_slots.1 "tid:5,range:(7),kx:2,ky:3"
    ⟨"5", [some 7, none, none, none, none, none, none, none],
      some 2, some 3, 0, none⟩ (by decide)

/-- C8: session mutation and storage eligibility are independent.  A parsed
reading whose tag is in the calibration set still applies its `cmd=1`/`cmd=3`
session transition but stages no row and bumps `skipped_calibration`; a
`cmd=0` reading applies no session transition, stages no row and bumps
`skipped_cmd0`. -/
theorem C8_sessions_independent_of_storage :
    ∀ (now : ℚ) (st : BatchState) (line : String) (r : RawReading),
      parse_line line = some r →
      ((r.cmd = 1 ∧ userTruthy r.user = true) → r.tid ∈ CALIBRATION_TAGS →
        processLine now st line =
          { st with
            rel := relatorio_open_or_update st.rel (r.user.getD "")
              r.kx r.ky now,
            relatorios_abertos := st.relatorios_abertos + 1,
            skipped_calibration := st.skipped_calibration + 1 }) ∧
      ((r.cmd = 3 ∧ userTruthy r.user = true) → r.tid ∈ CALIBRATION_TAGS →
        processLine now st line =
          { st with
            rel := relatorio_close st.rel (r.user.getD "") now,
            relatorios_fechados := st.relatorios_fechados + 1,
            skipped_calibration := st.skipped_calibration + 1 }) ∧
      (r.cmd = 0 →
        processLine now st line =
          { st with skipped_cmd0 := st.skipped_cmd0 + 1 }) := by
  intro now st line r h
  refine ⟨?_, ?_, ?_⟩
  · rintro ⟨h1, h2⟩ h3
    unfold processLine
    rw [h]
    simp [h1, h2, h3]
  · rintro ⟨h1, h2⟩ h3
    unfold processLine
    rw [h]
    simp [h1, h2, h3]
  · intro h0
    unfold processLine
    rw [h]
    simp [h0]

/-- C8 witness: a calibration-tag reading (`tid:62`) with `cmd=1,user:alice`
opens the session and is still skipped from storage, counted in
`skipped_calibration`. -/
theorem C8_sessions_independent_of_storage_witness :
    processLine 0 (initBatch ⟨1, []⟩)
      "tid:62,range:(100,110,103,0,0,0,0,0),kx:152.75,ky:101.3,cmd:1,user:alice" =
      { initBatch ⟨1, []⟩ with
        rel := relatorio_open_or_update ⟨1, []⟩ "alice"
          (some (mkRat 611 4)) (some (mkRat 1013 10)) 0,
        relatorios_abertos := 1,
        skipped_calibration := 1 } :=
  (C8_sessions_independent_of_storage 0 (initBatch ⟨1, []⟩)
      "tid:62,range:(100,110,103,0,0,0,0,0),kx:152.75,ky:101.3,cmd:1,user:alice"
      ⟨"62", [some 100, some 110, some 103, some 0, some 0, some 0, some 0,
        some 0], some (mkRat 611 4), some (mkRat 1013 10), 1, some "alice"⟩
      (by decide)).1 ⟨rfl, rfl⟩ (by decide)

/-- Helper for C9: a batch of unparsable lines only bumps
`skipped_invalid`. -/
theorem foldl_processLine_invalid (now : ℚ) :
    ∀ (lines : List String) (st : BatchState),
      (∀ l ∈ lines, parse_line l = none) →
      lines.foldl (processLine now) st =
        { st with skipped_invalid := st.skipped_invalid + lines.length } := by
  intro lines
  induction lines with
  | nil => intro st _; simp
  | cons a t ih =>
    intro st h
    rw [List.foldl_cons]
    have ha : processLine now st a =
        { st with skipped_invalid := st.skipped_invalid + 1 } := by
      unfold processLine
      rw [h a (List.mem_cons_self a t)]
    rw [ha, ih _ (fun l hl => h l (List.mem_cons_of_mem a hl))]
    simp only [List.length_cons]
    congr 1
    omega

/-- C9: an empty batch (no usable lines, or no items) raises a 400
rejected-request fault, which is distinct from the saved=0 success returned
when every row was individually skipped; unparsable rows are counted, never
raised. -/
theorem C9_empty_batch_is_fatal :
    (∀ (now : ℚ) (rel : RelState) (p : Payload),
      normalizePayload p = [] → ingest_dados_crus now rel p = .error 400) ∧
    (∀ (now : ℚ) (rel : RelState) (lines : List String),
      lines ≠ [] → (∀ l ∈ lines, pyStrip l ≠ "" ∧ parse_line l = none) →
      ingest_dados_crus now rel (.list lines) =
        .ok ({ saved := 0, skipped_cmd0 := 0, skipped_calibration := 0,
               skipped_invalid := lines.length, relatorios_abertos := 0,
               relatorios_fechados := 0 }, rel, [])) ∧
    (∀ (commitOk : Bool) (cache : Cache) (db : List ProcRow),
      ingest_processados commitOk cache db [] = (.error 400, cache, db)) := by
  refine ⟨?_, ?_, ?_⟩
  · intro now rel p h
    unfold ingest_dados_crus
    rw [h]
    rfl
  · intro now rel lines hne h
    have hfil : normalizePayload (.list lines) = lines := by
      unfold normalizePayload
      exact List.filter_eq_self.mpr (fun l hl => by
        simpa [bne_iff_ne] using (h l hl).1)
    unfold ingest_dados_crus
    rw [hfil, if_neg hne,
      foldl_processLine_invalid now lines (initBatch rel)
        (fun l hl => (h l hl).2)]
    simp [initBatch]
  · intro commitOk cache db
    unfold ingest_processados
    rfl

/-- C9 witness: an empty string payload and an empty `dados` list are 400
faults; a nonempty batch of garbage lines is a saved=0 success. -/
theorem C9_empty_batch_is_fatal_witness :
    ingest_dados_crus 0 ⟨1, []⟩ (.str "") = .error 400 ∧
    ingest_dados_crus 0 ⟨1, []⟩ (.list ["garbage"]) =
      .ok ({ saved := 0, skipped_cmd0 := 0, skipped_calibration := 0,
             skipped_invalid := 1, relatorios_abertos := 0,
             relatorios_fechados := 0 }, ⟨1, []⟩, []) ∧
    ingest_processados true [] [] [] = (.error 400, [], []) :=
  ⟨C9_empty_batch_is_fatal.1 0 ⟨1, []⟩ (.str "") (by decide),
   C9_empty_batch_is_fatal.2.1 0 ⟨1, []⟩ ["garbage"]
     (by decide)
     (fun l hl => by
       rw [List.mem_singleton.mp hl]
       exact ⟨by decide, by decide⟩),
   C9_empty_batch_is_fatal.2.2 true [] []⟩

/-- C10: a failed commit of a processed batch rolls back the table but not
the per-tag motion cache: the cache after a failed run equals the cache
after a successful run of the same batch (every entry updated during the
loop survives), while the table is left unchanged. -/
theorem C10_cache_survives_rollback :
    ∀ (cache : Cache) (db : List ProcRow) (items : List ProcItem),
      (ingest_processados false cache db items).2.1 =
        (ingest_processados true cache db items).2.1 ∧
      (ingest_processados false cache db items).2.2 = db ∧
      (items.isEmpty = false →
        (ingest_processados false cache db items).2.1 =
          (ingest_core cache items).1) := by
  intro cache db items
  unfold ingest_processados
  by_cases he : items.isEmpty
  · simp [he]
  · by_cases hr : (ingest_core cache items).2.isEmpty
    · simp [he, hr]
    · simp [he, hr]

/-- C10 witness: at a one-item batch (skipped for its empty tag), the failed
run keeps the loop's cache and leaves the table untouched. -/
theorem C10_cache_survives_rollback_witness :
    (ingest_processados false [] [] [⟨"", [], none, none, 0⟩]).2.1 =
      (ingest_core [] [⟨"", [], none, none, 0⟩]).1 ∧
    (ingest_processados false [] [] [⟨"", [], none, none, 0⟩]).2.2 = [] :=
  ⟨(C10_cache_survives_rollback [] [] [⟨"", [], none, none, 0⟩]).2.2 rfl,
   (C10_cache_survives_rollback [] [] [⟨"", [], none, none, 0⟩]).2.1⟩

/-! ## Validation of the `RE_LINE` embedding

The following evaluations were cross-checked against CPython's `re` engine
on the compiled `RE_LINE` pattern; they pin down the matcher's behavior on
the spec's scenario line, on whitespace and letter-case tolerance, and on
the cmd/user capture order. -/

/-- The spec's scenario line: leading `AT+RANGE=` junk and the `mask`/`seq`
fields are skipped over, all groups captured. -/
theorem parse_validation_scenario_line :
    (parse_line "AT+RANGE=tid:4,mask:01,seq:218,range:(100,110,103,0,0,0,0,0),kx:152.75,ky:101.3,cmd:2,user:user1") =
    some ⟨"4", [some 100, some 110, some 103, some 0, some 0, some 0, some 0, some 0],
          some (mkRat 611 4), some (mkRat 1013 10), 2, some "user1"⟩ := by decide

/-- Labels are case-insensitive and whitespace around `:` and `,` is
tolerated; signed and leading-dot numbers parse. -/
theorem parse_validation_case_and_space :
    (parse_line "TID : 7 , RANGE : (1,,x,nan) , KX : -1.5 , KY : .5") =
    some ⟨"7", [some 1, none, none, none, none, none, none, none],
          some (mkRat (-3) 2), some (mkRat 1 2), 0, none⟩ := by decide

/-- `user` before `cmd` in the text: the optional `cmd` group consumes past
the user field, so `user` is not captured (checked against CPython). -/
theorem parse_validation_user_before_cmd :
    (parse_line "tid:4,range:(1,2),kx:1,ky:2,user:bob,cmd:1") =
    some ⟨"4", [some 1, some 2, none, none, none, none, none, none],
          some 1, some 2, 1, none⟩ := by decide

/-- `user` with no `cmd` is captured, and `cmd` defaults to 0. -/
theorem parse_validation_user_only :
    (parse_line "tid:4,range:(1,2),kx:1,ky:2,user:bob") =
    some ⟨"4", [some 1, some 2, none, none, none, none, none, none],
          some 1, some 2, 0, some "bob"⟩ := by decide

end UWB
